import Mathlib

/-!
Verification of the key-construction and cache-aside state machine of
`cachefetcher` (file `cachefetcher/cachefetcher.go`).

The Go code is shallowly embedded:
pure string manipulation becomes Lean functions on `String`/`List String`;
the reflective switch over element kinds in `toStringsForElements` becomes
a closed inductive type `Element` of the kinds the switch distinguishes;
fallible operations return values paired with an `Option`/`Except` error;
the mutable fields `key` and `isCached` of `cacheFetcherImpl` become an
explicit state record threaded through each operation.
-/

set_option maxHeartbeats 1000000

namespace CacheFetcher

/-- Separator: constant `sep = "_"` in cachefetcher.go. -/
def sep : String := "_"

/-- Separator as a character (the separator is the single character `_`). -/
def sepChar : Char := '_'

/-- Models `strings.ReplaceAll(s, " ", sep)` (cachefetcher.go lines 105 and
118).  The pattern `" "` and the replacement `"_"` are both single
characters, so `ReplaceAll` is exactly the character-wise map sending the
space character to the separator character. -/
def replaceSpaces (s : String) : String :=
  String.mk (s.data.map (fun c => if c = ' ' then sepChar else c))

/-- One variadic `interface{}` argument of `SetKey`/`SetHashKey`, classified
the way the `reflect.TypeOf(e).Kind()` switch of `toStringsForElements`
(lines 130-161) classifies it:

* `scalar s` — a value of one of the scalar kinds (String, Bool, the Int,
  Uint, Float and Complex kinds, Uintptr); the switch leaves it alone and
  line 163 renders it with `fmt.Sprintf("%+v", e)`; `s` is that rendering;
* `nilElem` — the nil interface value (caught by `e == nil`, line 131);
* `ptr (some p)` — a non-nil pointer to the value `p`;
* `ptr none` — a typed nil pointer (a nil `*T` stored in the interface:
  `e == nil` is false, the kind is `Ptr`, and `v.Elem()` is the zero
  `reflect.Value`);
* `coll es` — an array or slice whose elements are `es` in order;
* `structVal (some s)` — a struct whose type has a `String() string`
  method returning `s` (so `%+v` renders it as `s`);
* `structVal none` — a struct without a `String()` method;
* `mapElem`, `chanElem`, `funcElem`, `unsafePtrElem` — the kinds of the
  final rejecting case of the switch (line 159). -/
inductive Element where
  | scalar (rendered : String)
  | nilElem
  | ptr (pointee : Option Element)
  | coll (elems : List Element)
  | structVal (stringer : Option String)
  | mapElem
  | chanElem
  | funcElem
  | unsafePtrElem

/-- Outcome of key construction other than success:
`invalidKeyElements` models returning `ErrInvalidKeyElements`, and
`panicked` models a Go runtime panic (`reflect.Value.Interface` called on
the zero `reflect.Value` that `v.Elem()` yields for a typed nil pointer,
line 140). -/
inductive KeyErr where
  | invalidKeyElements
  | panicked
deriving DecidableEq

mutual

/-- The token contributed by one element of `toStringsForElements`
(lines 130-164).  For a pointer the source recurses with the single
dereferenced value (line 140) and the one-element recursive call returns
exactly that value's token; for an array/slice it recurses with the list
of members (lines 144-152) and the token is their joined string; in both
cases the `fmt.Sprintf("%+v", e)` of line 163 then formats the returned
string, which is the identity. -/
def elementToken : Element → Except KeyErr String
  | .scalar s => .ok s
  | .nilElem => .error .invalidKeyElements
  | .ptr (some p) => elementToken p
  | .ptr none => .error .panicked
  | .coll es => Except.map (String.intercalate sep) (tokensOf es)
  | .structVal (some s) => .ok s
  | .structVal none => .error .invalidKeyElements
  | .mapElem => .error .invalidKeyElements
  | .chanElem => .error .invalidKeyElements
  | .funcElem => .error .invalidKeyElements
  | .unsafePtrElem => .error .invalidKeyElements

/-- The left-to-right loop of `toStringsForElements` (lines 130-164):
each element yields its token; the first failure aborts the whole loop
(the source returns immediately inside the loop). -/
def tokensOf : List Element → Except KeyErr (List String)
  | [] => .ok []
  | e :: es =>
    match elementToken e with
    | .error k => .error k
    | .ok t =>
      match tokensOf es with
      | .error k => .error k
      | .ok ts => .ok (t :: ts)

end

/-- Models `toStringsForElements` (lines 122-167): an empty element list
returns the empty string (line 124); otherwise the element tokens are
joined with the separator (`strings.Join(el, sep)`, line 166). -/
def toStringsForElements (es : List Element) : Except KeyErr String :=
  match es with
  | [] => .ok ""
  | _ => Except.map (String.intercalate sep) (tokensOf es)

/-- The mutable state of `cacheFetcherImpl` that the embedded operations
read and write: the current `key`, the `isCached` flag, and the
construction-time `debugPrintMode` option. -/
structure FetcherSt where
  key : String
  isCached : Bool
  debugPrintMode : Bool
deriving DecidableEq

/-- Models `SetKey` (lines 99-107): on an element error the key field is
left unchanged and the error is returned; on success the key becomes
`ReplaceAll(Join(append(prefixes, e), sep), " ", sep)`
(`append(prefixes, e)` is `prefixes ++ [e]`). -/
def SetKey (f : FetcherSt) (prefixes : List String) (elements : List Element) :
    FetcherSt × Option KeyErr :=
  match toStringsForElements elements with
  | .error k => (f, some k)
  | .ok e =>
    ({ f with key := replaceSpaces (String.intercalate sep (prefixes ++ [e])) }, none)

/-- Models `SetHashKey` (lines 110-120).  The element string is digested by
`hex.EncodeToString(sha256.Sum256([]byte(e)))`; the digest function is the
Go standard library, not repository code, so it is abstracted as the
parameter `hashHex`, and the theorems below hold for every `hashHex`.
`append(prefixes, h...)` with the singleton `h` is `prefixes ++ [hashHex e]`. -/
def SetHashKey (hashHex : String → String) (f : FetcherSt) (prefixes : List String)
    (elements : List Element) : FetcherSt × Option KeyErr :=
  match toStringsForElements elements with
  | .error k => (f, some k)
  | .ok e =>
    ({ f with key := replaceSpaces (String.intercalate sep (prefixes ++ [hashHex e])) }, none)

/-- A fetcher state as produced by `NewCacheFetcher`: empty key, not
cached, debug printing off. -/
def initSt : FetcherSt := ⟨"", false, false⟩

/-- The whitespace characters of Go's `unicode.IsSpace` in the ASCII
range: space, tab, newline, vertical tab, form feed, carriage return. -/
def isGoSpace (c : Char) : Bool :=
  c = ' ' || c = '\t' || c = '\n' || c = '\x0b' || c = '\x0c' || c = '\r'

/-- Claim C2: with an empty element list, `SetKey` still appends the empty
element segment before joining (`append(prefixes, e)` with `e = ""`,
line 105), so the produced key carries a trailing separator:
`SetKey(["prefix"," k e y "])` yields `"prefix__k_e_y__"`, not the
`"prefix__k_e_y_"` that the specification and the repository's own test
(`Test_SetKey`, cases "prefix" and "space") expect, and
`SetKey(["prefix","key"])` yields `"prefix_key_"`, not `"prefix_key"`. -/
theorem setKey_empty_elements_trailing_separator :
    (SetKey initSt ["prefix", " k e y "] []).1.key = "prefix__k_e_y__" ∧
    (SetKey initSt ["prefix", " k e y "] []).1.key ≠ "prefix__k_e_y_" ∧
    (SetKey initSt ["prefix", "key"] []).1.key = "prefix_key_" := by
  refine ⟨by decide, by decide, by decide⟩

/-- Claim C7, counterexample: only the space character is replaced
(`strings.ReplaceAll(s, " ", sep)`, line 105); a tab in a prefix survives
into the key, so the key is not free of whitespace: `SetKey` with prefix
`"a\tb"` and no elements succeeds and stores the key `"a\tb_"`, which
contains the whitespace character `'\t'`. -/
theorem setKey_keeps_tab_whitespace :
    (SetKey initSt ["a\tb"] []).2 = none ∧
    ¬ (∀ c ∈ ((SetKey initSt ["a\tb"] []).1.key).data, isGoSpace c = false) := by
  exact ⟨by decide, by decide⟩

/-- The character-wise space replacement leaves no space character in its
output, because the separator character is not a space. -/
theorem space_not_mem_replaceSpaces (s : String) : ' ' ∉ (replaceSpaces s).data := by
  intro h
  have h' : ' ' ∈ s.data.map (fun c => if c = ' ' then sepChar else c) := h
  rcases List.mem_map.mp h' with ⟨c, _, hc⟩
  by_cases hcs : c = ' ' <;> simp [hcs, sepChar] at hc

/-- Claim C7, amended: the space character `' '` (only) is replaced by the
separator anywhere in the final joined string, so the key stored by a
successful `SetKey` or `SetHashKey` contains no space character; other
whitespace characters (tab, newline, ...) are preserved, see
`setKey_keeps_tab_whitespace`. -/
theorem setKey_key_has_no_space_char (hashHex : String → String) (f : FetcherSt)
    (prefixes : List String) (es : List Element) :
    ((SetKey f prefixes es).2 = none → ' ' ∉ ((SetKey f prefixes es).1.key).data) ∧
    ((SetHashKey hashHex f prefixes es).2 = none →
      ' ' ∉ ((SetHashKey hashHex f prefixes es).1.key).data) := by
  constructor
  · intro h
    unfold SetKey at h ⊢
    cases hE : toStringsForElements es with
    | error k => rw [hE] at h; simp at h
    | ok e => exact space_not_mem_replaceSpaces _
  · intro h
    unfold SetHashKey at h ⊢
    cases hE : toStringsForElements es with
    | error k => rw [hE] at h; simp at h
    | ok e => exact space_not_mem_replaceSpaces _

/-- Witness for `setKey_key_has_no_space_char` at a concrete input whose
element rendering contains a space. -/
theorem setKey_key_has_no_space_char_witness :
    ' ' ∉ ((SetKey initSt ["prefix"] [Element.scalar "a b"]).1.key).data ∧
    ' ' ∉ ((SetHashKey (fun s => s) initSt ["prefix"] [Element.scalar "a b"]).1.key).data := by
  refine ⟨?_, ?_⟩
  · exact (setKey_key_has_no_space_char (fun s => s) initSt ["prefix"]
      [Element.scalar "a b"]).1 (by decide)
  · exact (setKey_key_has_no_space_char (fun s => s) initSt ["prefix"]
      [Element.scalar "a b"]).2 rfl

mutual

/-- No typed nil pointer occurs in the element at any nesting depth
(pointees and array/slice members are searched recursively, exactly the
places the source recurses into). -/
def noNilPtr : Element → Bool
  | .ptr none => false
  | .ptr (some p) => noNilPtr p
  | .coll es => noNilPtrList es
  | _ => true

/-- `noNilPtr` over every element of a list. -/
def noNilPtrList : List Element → Bool
  | [] => true
  | e :: es => noNilPtr e && noNilPtrList es

end

mutual

/-- The element contains, at some nesting depth, a value of one of the
kinds that `toStringsForElements` rejects with `ErrInvalidKeyElements`:
the nil interface, a map, a chan, a func, an unsafe pointer, or a struct
without a `String()` method. -/
def hasInvalidElem : Element → Bool
  | .nilElem => true
  | .mapElem => true
  | .chanElem => true
  | .funcElem => true
  | .unsafePtrElem => true
  | .structVal none => true
  | .structVal (some _) => false
  | .scalar _ => false
  | .ptr none => false
  | .ptr (some p) => hasInvalidElem p
  | .coll es => hasInvalidElemList es

/-- `hasInvalidElem` for at least one element of a list. -/
def hasInvalidElemList : List Element → Bool
  | [] => false
  | e :: es => hasInvalidElem e || hasInvalidElemList es

end

mutual

/-- An element containing neither a typed nil pointer nor a rejected kind
reduces to a token. -/
theorem elementToken_ok_of_clean :
    ∀ e : Element, noNilPtr e = true → hasInvalidElem e = false →
      ∃ s, elementToken e = .ok s
  | .scalar s, _, _ => ⟨s, rfl⟩
  | .nilElem, _, h2 => by simp [hasInvalidElem] at h2
  | .ptr (some p), h1, h2 => by
    obtain ⟨s, hs⟩ := elementToken_ok_of_clean p (by simpa [noNilPtr] using h1)
      (by simpa [hasInvalidElem] using h2)
    exact ⟨s, by simpa [elementToken] using hs⟩
  | .ptr none, h1, _ => by simp [noNilPtr] at h1
  | .coll es, h1, h2 => by
    obtain ⟨ts, hts⟩ := tokensOf_ok_of_clean es (by simpa [noNilPtr] using h1)
      (by simpa [hasInvalidElem] using h2)
    exact ⟨String.intercalate sep ts, by simp [elementToken, hts, Except.map]⟩
  | .structVal (some s), _, _ => ⟨s, rfl⟩
  | .structVal none, _, h2 => by simp [hasInvalidElem] at h2
  | .mapElem, _, h2 => by simp [hasInvalidElem] at h2
  | .chanElem, _, h2 => by simp [hasInvalidElem] at h2
  | .funcElem, _, h2 => by simp [hasInvalidElem] at h2
  | .unsafePtrElem, _, h2 => by simp [hasInvalidElem] at h2

/-- A list of clean elements reduces to a token list. -/
theorem tokensOf_ok_of_clean :
    ∀ es : List Element, noNilPtrList es = true → hasInvalidElemList es = false →
      ∃ ts, tokensOf es = .ok ts
  | [], _, _ => ⟨[], rfl⟩
  | e :: es, h1, h2 => by
    obtain ⟨t, ht⟩ := elementToken_ok_of_clean e
      (by simp [noNilPtrList] at h1; exact h1.1)
      (by simp [hasInvalidElemList] at h2; exact h2.1)
    obtain ⟨ts, hts⟩ := tokensOf_ok_of_clean es
      (by simp [noNilPtrList] at h1; exact h1.2)
      (by simp [hasInvalidElemList] at h2; exact h2.2)
    exact ⟨t :: ts, by simp [tokensOf, ht, hts]⟩

end

mutual

/-- An element free of typed nil pointers but containing a rejected kind
reduces to `ErrInvalidKeyElements`. -/
theorem elementToken_err_of_invalid :
    ∀ e : Element, noNilPtr e = true → hasInvalidElem e = true →
      elementToken e = .error .invalidKeyElements
  | .nilElem, _, _ => rfl
  | .scalar _, _, h2 => by simp [hasInvalidElem] at h2
  | .ptr (some p), h1, h2 => by
    have := elementToken_err_of_invalid p (by simpa [noNilPtr] using h1)
      (by simpa [hasInvalidElem] using h2)
    simpa [elementToken] using this
  | .ptr none, h1, _ => by simp [noNilPtr] at h1
  | .coll es, h1, h2 => by
    have := tokensOf_err_of_invalid es (by simpa [noNilPtr] using h1)
      (by simpa [hasInvalidElem] using h2)
    simp [elementToken, this, Except.map]
  | .structVal (some _), _, h2 => by simp [hasInvalidElem] at h2
  | .structVal none, _, _ => rfl
  | .mapElem, _, _ => rfl
  | .chanElem, _, _ => rfl
  | .funcElem, _, _ => rfl
  | .unsafePtrElem, _, _ => rfl

/-- A list free of typed nil pointers containing a rejected kind somewhere
reduces to `ErrInvalidKeyElements` (the loop reaches the offending element
or fails on an earlier one, which without typed nil pointers can only be
with this same error). -/
theorem tokensOf_err_of_invalid :
    ∀ es : List Element, noNilPtrList es = true → hasInvalidElemList es = true →
      tokensOf es = .error .invalidKeyElements
  | [], _, h2 => by simp [hasInvalidElemList] at h2
  | e :: es, h1, h2 => by
    have h1a : noNilPtr e = true := by simp [noNilPtrList] at h1; exact h1.1
    have h1b : noNilPtrList es = true := by simp [noNilPtrList] at h1; exact h1.2
    by_cases hbad : hasInvalidElem e = true
    · have he := elementToken_err_of_invalid e h1a hbad
      simp [tokensOf, he]
    · have hbad' : hasInvalidElem e = false := by
        revert hbad; cases hasInvalidElem e <;> simp
      have h2b : hasInvalidElemList es = true := by
        simp [hasInvalidElemList, hbad'] at h2; exact h2
      obtain ⟨t, ht⟩ := elementToken_ok_of_clean e h1a hbad'
      have hes := tokensOf_err_of_invalid es h1b h2b
      simp [tokensOf, ht, hes]

end

/-- Element reduction succeeds on any list free of typed nil pointers and
rejected kinds. -/
theorem toStrings_ok_of_clean (es : List Element) (h1 : noNilPtrList es = true)
    (h2 : hasInvalidElemList es = false) : ∃ s, toStringsForElements es = .ok s := by
  cases es with
  | nil => exact ⟨"", rfl⟩
  | cons e es' =>
    obtain ⟨ts, hts⟩ := tokensOf_ok_of_clean (e :: es') h1 h2
    exact ⟨String.intercalate sep ts, by simp [toStringsForElements, hts, Except.map]⟩

/-- Element reduction fails with `ErrInvalidKeyElements` on any list free
of typed nil pointers that contains a rejected kind at some depth. -/
theorem toStrings_err_of_invalid (es : List Element) (h1 : noNilPtrList es = true)
    (h2 : hasInvalidElemList es = true) :
    toStringsForElements es = .error .invalidKeyElements := by
  cases es with
  | nil => simp [hasInvalidElemList] at h2
  | cons e es' =>
    have h := tokensOf_err_of_invalid (e :: es') h1 h2
    simp [toStringsForElements, h, Except.map]

/-- Claim C6, counterexample: an element list containing a map element is
not always rejected with the invalid-key-element error: when a typed nil
pointer precedes it in the list, `v.Elem().Interface()` (line 140) panics
on the zero `reflect.Value` before the map element is ever examined, so
`SetKey` panics instead of returning `ErrInvalidKeyElements`. -/
theorem setKey_invalid_preempted_by_panic :
    hasInvalidElemList [Element.ptr none, Element.mapElem] = true ∧
    (SetKey initSt ["prefix"] [Element.ptr none, Element.mapElem]).2 = some KeyErr.panicked ∧
    (SetKey initSt ["prefix"] [Element.ptr none, Element.mapElem]).2 ≠
      some KeyErr.invalidKeyElements := by
  refine ⟨by decide, by decide, by decide⟩

/-- Claim C6, amended: for every element list free of typed nil pointers
that contains, at any nesting depth, a nil element, a map, a chan, a func
(or an unsafe pointer), or a struct without a `String()` method, `SetKey`
and `SetHashKey` return `ErrInvalidKeyElements` and leave the fetcher
state — in particular the previously stored key — unchanged.  Neither
function takes the backend client at all, so no backend call is made. -/
theorem setKey_rejects_invalid_elements (hashHex : String → String) (f : FetcherSt)
    (prefixes : List String) (es : List Element)
    (h1 : noNilPtrList es = true) (h2 : hasInvalidElemList es = true) :
    SetKey f prefixes es = (f, some KeyErr.invalidKeyElements) ∧
    SetHashKey hashHex f prefixes es = (f, some KeyErr.invalidKeyElements) := by
  have h := toStrings_err_of_invalid es h1 h2
  constructor <;> simp [SetKey, SetHashKey, h]

/-- Witness for `setKey_rejects_invalid_elements`: a nil element nested
inside a slice. -/
theorem setKey_rejects_invalid_elements_witness :
    SetKey initSt ["prefix", "key"] [Element.coll [Element.scalar "1", Element.nilElem]] =
      (initSt, some KeyErr.invalidKeyElements) ∧
    SetHashKey (fun s => s) initSt ["prefix", "key"]
      [Element.coll [Element.scalar "1", Element.nilElem]] =
      (initSt, some KeyErr.invalidKeyElements) :=
  setKey_rejects_invalid_elements (fun s => s) initSt ["prefix", "key"]
    [Element.coll [Element.scalar "1", Element.nilElem]] (by decide) (by decide)

/-- Claim C10, counterexample: a typed nil pointer element makes the
reduction panic (`reflect.Value.Interface` on the zero value produced by
`v.Elem()` of a nil pointer, line 140), so `SetKey` neither produces a key
nor returns the invalid-key-element error. -/
theorem setKey_typed_nil_pointer_panics :
    (SetKey initSt ["prefix"] [Element.ptr none]).2 = some KeyErr.panicked ∧
    ¬ ((SetKey initSt ["prefix"] [Element.ptr none]).2 = none ∨
       (SetKey initSt ["prefix"] [Element.ptr none]).2 = some KeyErr.invalidKeyElements) := by
  refine ⟨by decide, by decide⟩

/-- Claim C10, amended: for every element list with no typed nil pointer
at any nesting depth, `SetKey` and `SetHashKey` are total: each returns
either a key (no error) or the invalid-key-element error, and never the
panic outcome. -/
theorem setKey_total_without_typed_nil (hashHex : String → String) (f : FetcherSt)
    (prefixes : List String) (es : List Element) (h : noNilPtrList es = true) :
    ((SetKey f prefixes es).2 = none ∨
     (SetKey f prefixes es).2 = some KeyErr.invalidKeyElements) ∧
    ((SetHashKey hashHex f prefixes es).2 = none ∨
     (SetHashKey hashHex f prefixes es).2 = some KeyErr.invalidKeyElements) := by
  by_cases hbad : hasInvalidElemList es = true
  · have hE := toStrings_err_of_invalid es h hbad
    constructor <;> simp [SetKey, SetHashKey, hE]
  · have hbad' : hasInvalidElemList es = false := by
      revert hbad; cases hasInvalidElemList es <;> simp
    obtain ⟨s, hs⟩ := toStrings_ok_of_clean es h hbad'
    constructor <;> simp [SetKey, SetHashKey, hs]

/-- Witness for `setKey_total_without_typed_nil`: a non-nil pointer to a
scalar. -/
theorem setKey_total_without_typed_nil_witness :
    ((SetKey initSt ["prefix"] [Element.ptr (some (Element.scalar "7"))]).2 = none ∨
     (SetKey initSt ["prefix"] [Element.ptr (some (Element.scalar "7"))]).2 =
       some KeyErr.invalidKeyElements) ∧
    ((SetHashKey (fun s => s) initSt ["prefix"] [Element.ptr (some (Element.scalar "7"))]).2 =
       none ∨
     (SetHashKey (fun s => s) initSt ["prefix"] [Element.ptr (some (Element.scalar "7"))]).2 =
       some KeyErr.invalidKeyElements) :=
  setKey_total_without_typed_nil (fun s => s) initSt ["prefix"]
    [Element.ptr (some (Element.scalar "7"))] (by decide)

/-- Go error values that flow through the fetch engine.  `cacheMiss`
stands for a backend error a client predicate may classify as a miss
(for the sample clients, `redis.Nil`); `backendErr`/`producerErr` are
families of distinct other errors; `dstNoPointer` models the wrapped
error `fmt.Errorf("dst: %w", ErrNoPointerType)` of line 263; `printErr`
models a write error reported by `pp.Printf` in `debugPrint`. -/
inductive Err where
  | cacheMiss
  | backendErr (n : Nat)
  | producerErr (n : Nat)
  | dstNoPointer
  | printErr
deriving DecidableEq

/-- The observable calls an operation makes to the collaborators: the
client's Get/Set/Del and the caller-supplied producer (fetcher) function. -/
inductive Call where
  | clientGet
  | clientSet
  | clientDel
  | producerCall
deriving DecidableEq

/-- The environment a single coalesced operation runs against: the
client's miss predicate `IsErrCacheMiss` (a Go predicate on a possibly
nil error, hence on `Option Err`), whether the destination argument's
reflective kind is `Ptr`, and the outcomes the external collaborators
would return when called: the client `Get` outcome (an error, or the
value it stores into the destination), the producer outcome, the client
`Set` outcome as a function of the stored value and expiration, the
client `Del` outcome, and the outcome of the `pp.Printf` write performed
by `debugPrint` when debug mode is on. -/
structure FetchEnv (V : Type) where
  isMiss : Option Err → Bool
  dstIsPtr : Bool
  getRes : Except Err V
  producerRes : Except Err V
  clientSet : V → Int → Option Err
  delRes : Option Err
  printRes : Option Err

/-- Models `debugPrint` (lines 341-349): in debug mode the outcome of the
`pp.Printf` write is returned; otherwise nil. -/
def debugPrintFn (st : FetcherSt) (printRes : Option Err) : Option Err :=
  if st.debugPrintMode then printRes else none

/-- Models `isErrOtherThanCacheMiss` (lines 337-339):
`err != nil && !f.client.IsErrCacheMiss(err)`. -/
def isErrOtherThanCacheMiss (env : FetchEnv V) (err : Option Err) : Bool :=
  err.isSome && !env.isMiss err

/-- Models the closure returned by `get` (lines 258-273): clear the cached
flag; reject a non-pointer destination before any backend call; call the
client's Get; on success set the cached flag and return the destination's
value.  The third component records the collaborator calls made. -/
def getFn (env : FetchEnv V) (st : FetcherSt) :
    FetcherSt × Except Err V × List Call :=
  let st1 := { st with isCached := false }
  if !env.dstIsPtr then
    (st1, .error .dstNoPointer, [])
  else
    match env.getRes with
    | .error e => (st1, .error e, [.clientGet])
    | .ok v => ({ st1 with isCached := true }, .ok v, [.clientGet])

/-- The producer branch of `fetch` (lines 202-216): call the fetcher
function; propagate its error unwrapped; otherwise store the produced
value through the client's Set (the produced value is used as-is here:
the pointer normalization of lines 209-211 is the identity on the plain
values `V` of this model) and propagate a Set failure; on success return
the produced value. -/
def producerStep (env : FetchEnv V) (expiration : Int) (st : FetcherSt)
    (trace : List Call) : FetcherSt × Except Err V × List Call :=
  match env.producerRes with
  | .error e => (st, .error e, trace ++ [.producerCall])
  | .ok v =>
    match env.clientSet v expiration with
    | some e => (st, .error e, trace ++ [.producerCall, .clientSet])
    | none => (st, .ok v, trace ++ [.producerCall, .clientSet])

/-- Models the coalesced unit of work built by `fetch` (lines 191-218):
run the `get` closure; abort with the error if it is anything other than
a cache miss; if the read resolved from the cache return the cached
value; otherwise run the producer branch.  (On the error branch the
source re-checks `f.isCached`, which is necessarily false there because
`get` clears it before returning any error, so the branch goes straight
to the producer.) -/
def fetchFn (env : FetchEnv V) (expiration : Int) (st : FetcherSt) :
    FetcherSt × Except Err V × List Call :=
  match getFn env st with
  | (st1, r1, t1) =>
    match r1 with
    | .error e =>
      if isErrOtherThanCacheMiss env (some e) then (st1, .error e, t1)
      else producerStep env expiration st1 t1
    | .ok v =>
      if st1.isCached then (st1, .ok v, t1)
      else producerStep env expiration st1 t1

/-- Models `Fetch` (lines 170-189) for the caller whose submitted unit of
work is the one `singleflight` executes and whose channel receive wins
against the group timeout: the unit's error is returned as-is; on success
`debugPrint` runs (propagating a print failure) and then the result value
is copied into the caller's destination (the `.ok` value here). -/
def FetchOne (env : FetchEnv V) (expiration : Int) (st : FetcherSt) :
    FetcherSt × Except Err V × List Call :=
  match fetchFn env expiration st with
  | (st1, r, t) =>
    match r with
    | .error e => (st1, .error e, t)
    | .ok v =>
      match debugPrintFn st1 env.printRes with
      | some e => (st1, .error e, t)
      | none => (st1, .ok v, t)

/-- Models `Get` (lines 239-256) under the same single-caller, no-timeout
reading as `FetchOne`: the error of the `get` closure is returned as-is;
on success `debugPrint` runs and nil is returned. -/
def GetOne (env : FetchEnv V) (st : FetcherSt) : FetcherSt × Option Err × List Call :=
  match getFn env st with
  | (st1, r, t) =>
    match r with
    | .error e => (st1, some e, t)
    | .ok _ =>
      match debugPrintFn st1 env.printRes with
      | some e => (st1, some e, t)
      | none => (st1, none, t)

/-- Models `Set` (lines 221-232): clear the cached flag, write through the
client, propagate a write failure with the flag still cleared; on success
set the flag and run `debugPrint`, whose failure is propagated with the
flag already set. -/
def Set (env : FetchEnv V) (value : V) (expiration : Int) (st : FetcherSt) :
    FetcherSt × Option Err :=
  let st1 := { st with isCached := false }
  match env.clientSet value expiration with
  | some e => (st1, some e)
  | none =>
    let st2 := { st1 with isCached := true }
    match debugPrintFn st2 env.printRes with
    | some e => (st2, some e)
    | none => (st2, none)

/-- Models `Del` (lines 311-325): call the client's Del; the cached flag
becomes the negation of the miss predicate applied to the Del outcome
(`isCached = true`, then set to `false` when `IsErrCacheMiss(err)`); any
non-nil error — miss-classified or not — is then returned; on a nil error
`debugPrint` runs. -/
def Del (env : FetchEnv V) (st : FetcherSt) : FetcherSt × Option Err :=
  let st1 := { st with isCached := !env.isMiss env.delRes }
  match env.delRes with
  | some e => (st1, some e)
  | none =>
    match debugPrintFn st1 env.printRes with
    | some e => (st1, some e)
    | none => (st1, none)

/-- A concrete environment: pointer destination, backend Get failure that
is not a miss, succeeding producer and client Set, no print failure. -/
def envBackendFail : FetchEnv Nat where
  isMiss := fun e => e == some Err.cacheMiss
  dstIsPtr := true
  getRes := .error (Err.backendErr 0)
  producerRes := .ok 42
  clientSet := fun _ _ => none
  delRes := none
  printRes := none

/-- A concrete environment: pointer destination, cache miss on Get,
failing producer. -/
def envProducerFail : FetchEnv Nat where
  isMiss := fun e => e == some Err.cacheMiss
  dstIsPtr := true
  getRes := .error Err.cacheMiss
  producerRes := .error (Err.producerErr 7)
  clientSet := fun _ _ => none
  delRes := none
  printRes := none

/-- A concrete environment whose client Del reports the miss-classified
error. -/
def envDelMiss : FetchEnv Nat where
  isMiss := fun e => e == some Err.cacheMiss
  dstIsPtr := true
  getRes := .ok 0
  producerRes := .ok 0
  clientSet := fun _ _ => none
  delRes := some Err.cacheMiss
  printRes := none

/-- A concrete environment whose debug-print write fails while every
backend call succeeds. -/
def envPrintFail : FetchEnv Nat where
  isMiss := fun e => e == some Err.cacheMiss
  dstIsPtr := true
  getRes := .ok 0
  producerRes := .ok 0
  clientSet := fun _ _ => none
  delRes := none
  printRes := some Err.printErr

/-- A fetcher state with debug printing enabled. -/
def debugSt : FetcherSt := ⟨"k", false, true⟩

/-- Claim C3: when the cache read inside the coalesced unit of work fails
with an error the client's miss predicate does not classify as a miss,
the unit — and hence Fetch for the caller receiving its result — returns
exactly that error, and the producer function is never invoked (the call
trace is the single client Get). -/
theorem fetch_propagates_non_miss_get_error (env : FetchEnv V) (expiration : Int)
    (st : FetcherSt) (e : Err) (hp : env.dstIsPtr = true)
    (hg : env.getRes = .error e) (hm : env.isMiss (some e) = false) :
    FetchOne env expiration st = ({ st with isCached := false }, .error e, [.clientGet]) ∧
    Call.producerCall ∉ (FetchOne env expiration st).2.2 := by
  have h1 : fetchFn env expiration st =
      ({ st with isCached := false }, .error e, [.clientGet]) := by
    simp [fetchFn, getFn, hp, hg, isErrOtherThanCacheMiss, hm]
  refine ⟨?_, ?_⟩ <;> simp [FetchOne, h1]

/-- Witness for `fetch_propagates_non_miss_get_error`. -/
theorem fetch_propagates_non_miss_get_error_witness :
    FetchOne envBackendFail 10 initSt =
      ({ initSt with isCached := false }, .error (Err.backendErr 0), [Call.clientGet]) ∧
    Call.producerCall ∉ (FetchOne envBackendFail 10 initSt).2.2 :=
  fetch_propagates_non_miss_get_error envBackendFail 10 initSt (Err.backendErr 0)
    rfl rfl (by decide)

/-- Claim C5: on a cache miss (read error the miss predicate classifies as
a miss) with a producer that fails, the coalesced unit — and hence Fetch —
returns the producer's error verbatim (the very same error value,
unwrapped) and never calls the client's Set, leaving the cache untouched. -/
theorem fetch_propagates_producer_error_without_set (env : FetchEnv V)
    (expiration : Int) (st : FetcherSt) (m pe : Err) (hp : env.dstIsPtr = true)
    (hg : env.getRes = .error m) (hm : env.isMiss (some m) = true)
    (hf : env.producerRes = .error pe) :
    FetchOne env expiration st =
      ({ st with isCached := false }, .error pe, [.clientGet, .producerCall]) ∧
    Call.clientSet ∉ (FetchOne env expiration st).2.2 := by
  have h1 : fetchFn env expiration st =
      ({ st with isCached := false }, .error pe, [.clientGet, .producerCall]) := by
    simp [fetchFn, getFn, hp, hg, isErrOtherThanCacheMiss, hm, producerStep, hf]
  refine ⟨?_, ?_⟩ <;> simp [FetchOne, h1]

/-- Witness for `fetch_propagates_producer_error_without_set`. -/
theorem fetch_propagates_producer_error_without_set_witness :
    FetchOne envProducerFail 10 initSt =
      ({ initSt with isCached := false }, .error (Err.producerErr 7),
        [Call.clientGet, Call.producerCall]) ∧
    Call.clientSet ∉ (FetchOne envProducerFail 10 initSt).2.2 :=
  fetch_propagates_producer_error_without_set envProducerFail 10 initSt
    Err.cacheMiss (Err.producerErr 7) rfl rfl (by decide) rfl

/-- Claim C8: a destination whose reflective kind is not `Ptr` makes the
read closure fail with the wrapped `ErrNoPointerType` before any client
call (the call trace is empty), with the cached flag false afterward, and
the outer Get returns the same error. -/
theorem get_rejects_non_pointer_destination (env : FetchEnv V) (st : FetcherSt)
    (hp : env.dstIsPtr = false) :
    getFn env st = ({ st with isCached := false }, .error .dstNoPointer, []) ∧
    GetOne env st = ({ st with isCached := false }, some .dstNoPointer, []) := by
  constructor <;> simp [getFn, GetOne, hp]

/-- Witness for `get_rejects_non_pointer_destination`. -/
theorem get_rejects_non_pointer_destination_witness :
    getFn { envBackendFail with dstIsPtr := false } initSt =
      ({ initSt with isCached := false }, .error .dstNoPointer, []) ∧
    GetOne { envBackendFail with dstIsPtr := false } initSt =
      ({ initSt with isCached := false }, some .dstNoPointer, []) :=
  get_rejects_non_pointer_destination { envBackendFail with dstIsPtr := false } initSt rfl

/-- Claim C4, counterexample: when the client's Del outcome is classified
by the miss predicate as a miss, `Del` does set the cached flag to false,
but it does not return success: line 317 returns every non-nil error, so
the miss-classified error is propagated to the caller. -/
theorem del_returns_miss_classified_error :
    envDelMiss.isMiss envDelMiss.delRes = true ∧
    (Del envDelMiss initSt).1.isCached = false ∧
    (Del envDelMiss initSt).2 = some Err.cacheMiss ∧
    (Del envDelMiss initSt).2 ≠ none := by
  refine ⟨by decide, by decide, by decide, by decide⟩

/-- Claim C4, amended: when the client's Del returns a non-nil error, the
cached flag becomes the negation of the miss predicate's classification
of that outcome (false exactly when it is miss-classified) and the error
is propagated to the caller — whether or not it is miss-classified; Del
returns success only when the backend reported no error at all. -/
theorem del_propagates_every_error (env : FetchEnv V) (st : FetcherSt) (e : Err)
    (hd : env.delRes = some e) :
    Del env st = ({ st with isCached := !env.isMiss (some e) }, some e) := by
  simp [Del, hd]

/-- Witness for `del_propagates_every_error`. -/
theorem del_propagates_every_error_witness :
    Del envDelMiss initSt =
      ({ initSt with isCached := !envDelMiss.isMiss (some Err.cacheMiss) },
        some Err.cacheMiss) :=
  del_propagates_every_error envDelMiss initSt Err.cacheMiss rfl

/-- Claim C9, counterexample: with debug printing enabled and a failing
print writer, the backend write succeeds — so the cached flag is true —
yet `Set` returns a non-nil error (the print error, line 228-230); a
non-nil return from Set therefore does not imply `IsCached() = false`. -/
theorem set_error_with_cached_true :
    (Set envPrintFail (5 : Nat) 10 debugSt).2 = some Err.printErr ∧
    (Set envPrintFail (5 : Nat) 10 debugSt).1.isCached = true := by
  refine ⟨by decide, by decide⟩

/-- Claim C9, amended: the cached flag after `Set` equals exactly the
success of the backend write, for every value and ttl; and when debug
printing is disabled, Set's return value is exactly the backend write's
outcome, so Set returns nil iff the cached flag is true. -/
theorem set_cached_iff_write_succeeded (env : FetchEnv V) (value : V)
    (expiration : Int) (st : FetcherSt) :
    (Set env value expiration st).1.isCached = (env.clientSet value expiration).isNone ∧
    (st.debugPrintMode = false →
      (Set env value expiration st).2 = env.clientSet value expiration) := by
  constructor
  · cases h : env.clientSet value expiration with
    | some e => simp [Set, h]
    | none =>
      simp only [Set, h]
      split <;> simp
  · intro hdp
    cases h : env.clientSet value expiration with
    | some e => simp [Set, h]
    | none => simp [Set, h, debugPrintFn, hdp]

/-- Witness for `set_cached_iff_write_succeeded`. -/
theorem set_cached_iff_write_succeeded_witness :
    (Set envBackendFail (5 : Nat) 10 initSt).1.isCached = true ∧
    (Set envBackendFail (5 : Nat) 10 initSt).2 = none := by
  have h := set_cached_iff_write_succeeded envBackendFail (5 : Nat) 10 initSt
  exact ⟨by simpa [envBackendFail] using h.1, by simpa [envBackendFail] using h.2 rfl⟩

end CacheFetcher
